import Mathlib

/-!
Verification of the OriginRoleToRBACRoleController
(`pkg/authorization/controller/authorizationsync/origin_to_rbac_role_controller.go`).

The controller's `syncRole` converge function and its `policyEventHandler`
are embedded shallowly.  External collaborators (the rbac lister, the origin
lister backed by the controller's own indexer, the rbac write client, and the
generated conversion/deep-copy utilities) are modelled as an environment of
pure functions describing the results the Go code observes from them; the
writes `syncRole` issues are collected in an explicit trace list.
-/

namespace AuthorizationSync

/-- Go `error` values as `syncRole` distinguishes them: `apierrors.IsNotFound`
recognises `notFound`, `apierrors.IsInvalid` recognises `invalid`, `badKey` is
the error of `cache.SplitMetaNamespaceKey`, and `other` stands for any other
(e.g. transient) error.  A Go `nil` error is `Option.none` over this type. -/
inductive GoError where
  | notFound
  | invalid
  | badKey (key : String)
  | other (msg : String)
deriving DecidableEq, Repr

deriving instance DecidableEq for Except

/-- `apierrors.IsNotFound` on a possibly-nil error. -/
def isNotFound : Option GoError → Bool
  | some GoError.notFound => true
  | _ => false

/-- `apierrors.IsInvalid` on a possibly-nil error. -/
def isInvalid : Option GoError → Bool
  | some GoError.invalid => true
  | _ => false

/-- The identity-bearing part of a k8s `ObjectMeta` that `syncRole` touches:
`Namespace`, `Name`, `UID`, `ResourceVersion`, `CreationTimestamp`,
`SelfLink`. -/
structure ObjectMeta where
  ns : String
  name : String
  uid : String
  resourceVersion : String
  creationTimestamp : Nat
  selfLink : String
deriving DecidableEq, Repr

/-- An origin `authorizationapi.Role`: identity metadata plus its rule
payload (rules are kept abstract as strings; `syncRole` never inspects
them). -/
structure OriginRole where
  meta : ObjectMeta
  rules : List String
deriving DecidableEq, Repr

/-- An `rbac.Role` in the derived store: identity metadata plus its rule
payload in the rbac shape. -/
structure RbacRole where
  meta : ObjectMeta
  rules : List String
deriving DecidableEq, Repr

/-- `cache.SplitMetaNamespaceKey`: `strings.Split` the key on `"/"` (done here
character-wise over the string's data so that it computes); one part is a bare
name, two parts are namespace and name, any other number of parts is an
error. -/
def splitMetaNamespaceKey (key : String) : Except GoError (String × String) :=
  match (key.data.splitOn '/').map (fun cs => String.mk cs) with
  | [name] => Except.ok ("", name)
  | [ns, name] => Except.ok (ns, name)
  | _ => Except.error (GoError.badKey key)

/-- `cache.MetaNamespaceKeyFunc` (also `controller.KeyFunc` on a typed object
with accessible metadata, where it cannot fail): `"namespace/name"`, or just
`"name"` for an object without a namespace. -/
def metaNamespaceKeyFunc (m : ObjectMeta) : String :=
  if m.ns = "" then m.name else m.ns ++ "/" ++ m.name

/-- One write issued against the rbac client (`Roles(ns).Create/Update/Delete`). -/
inductive WriteCall where
  | create (ns : String) (role : RbacRole)
  | update (ns : String) (role : RbacRole)
  | delete (ns : String) (name : String)
deriving DecidableEq, Repr

/-- The environment `syncRole` runs against: the results its external calls
return.  Lookups return `Except.error e` when the Go call returned the non-nil
error `e` (the returned pointer is then unused), `Except.ok` with the object
otherwise.  `deepCopy` models `rbac.DeepCopy_rbac_Role`, whose only observable
outcome under value semantics is an error or an exact copy, so only its error
is kept.  `createResult`/`updateResult`/`deleteResult` give the error each
write returns for the object or name it is invoked with. -/
structure SyncEnv where
  rbacGet : String → String → Except GoError RbacRole
  originGet : String → String → Except GoError OriginRole
  convert : OriginRole → Except GoError RbacRole
  deepCopy : RbacRole → Option GoError
  createResult : String → RbacRole → Option GoError
  updateResult : String → RbacRole → Option GoError
  deleteResult : String → String → Option GoError

/-- The convert-then-deep-copy prefix of `syncRole`'s source-present path:
`Convert_api_Role_To_rbac_Role` into a fresh object, then
`DeepCopy_rbac_Role` of the result; either error aborts.  On success the
candidate is the converted value (the deep copy is an exact copy). -/
def convertDeepCopy (env : SyncEnv) (originRole : OriginRole) :
    Except GoError RbacRole :=
  match env.convert originRole with
  | Except.error e => Except.error e
  | Except.ok convertedRole =>
    match env.deepCopy convertedRole with
    | some e => Except.error e
    | none => Except.ok convertedRole

/-- The create branch (`apierrors.IsNotFound(rbacErr)`): clear the candidate's
`ResourceVersion`, issue the create, return its error. -/
def createBranch (env : SyncEnv) (ns : String) (equivalentRole : RbacRole) :
    Option GoError × List WriteCall :=
  let toCreate : RbacRole :=
    { equivalentRole with
      meta := { equivalentRole.meta with resourceVersion := "" } }
  (env.createResult ns toCreate, [WriteCall.create ns toCreate])

/-- Stomping of the fields "that are never going to match": the candidate's
`SelfLink`, `UID`, `ResourceVersion` and `CreationTimestamp` are overwritten
with the existing rbac role's values. -/
def stompIdentity (cand existing : RbacRole) : RbacRole :=
  { cand with
    meta := { cand.meta with
      selfLink := existing.meta.selfLink
      uid := existing.meta.uid
      resourceVersion := existing.meta.resourceVersion
      creationTimestamp := existing.meta.creationTimestamp } }

/-- The update branch (both roles present): stomp identity fields, return with
no write when `kapi.Semantic.DeepEqual` holds, otherwise issue the update; when
the update error is `apierrors.IsInvalid`, also issue a delete whose error is
discarded; the update's own error is returned either way. -/
def updateBranch (env : SyncEnv) (ns name : String)
    (equivalentRole rbacRole : RbacRole) : Option GoError × List WriteCall :=
  let equiv := stompIdentity equivalentRole rbacRole
  if equiv = rbacRole then (none, [])
  else
    let updErr := env.updateResult ns equiv
    if isInvalid updErr then
      (updErr, [WriteCall.update ns equiv, WriteCall.delete ns name])
    else
      (updErr, [WriteCall.update ns equiv])

/-- `syncRole` of `OriginRoleToRBACRoleController`: returns the Go function's
error result together with the trace of writes it issued against the rbac
client.  The branch structure mirrors the source: parse the key; look up the
rbac role, propagating any non-NotFound error; look up the origin role
likewise; return on both NotFound; delete when only the origin role is
missing; otherwise convert and deep-copy, then create (rbac missing) or
compare-and-update. -/
def syncRole (env : SyncEnv) (key : String) : Option GoError × List WriteCall :=
  match splitMetaNamespaceKey key with
  | Except.error e => (some e, [])
  | Except.ok (ns, name) =>
    match env.rbacGet ns name with
    | Except.error rbacE =>
      if rbacE ≠ GoError.notFound then (some rbacE, [])
      else
        match env.originGet ns name with
        | Except.error originE =>
          if originE ≠ GoError.notFound then (some originE, [])
          else (none, [])
        | Except.ok originRole =>
          match convertDeepCopy env originRole with
          | Except.error e => (some e, [])
          | Except.ok equivalentRole => createBranch env ns equivalentRole
    | Except.ok rbacRole =>
      match env.originGet ns name with
      | Except.error originE =>
        if originE ≠ GoError.notFound then (some originE, [])
        else (env.deleteResult ns name, [WriteCall.delete ns name])
      | Except.ok originRole =>
        match convertDeepCopy env originRole with
        | Except.error e => (some e, [])
        | Except.ok equivalentRole =>
          updateBranch env ns name equivalentRole rbacRole

/-! ### Event handler (`policyEventHandler`)

The handler callbacks receive a `Policy` container (or, on delete, possibly a
`cache.DeletedFinalStateUnknown` tombstone or an arbitrary object), add each
nested role to the controller's own `originIndexer`, and enqueue that role's
key.  `controller.KeyFunc` on a typed role with well-formed metadata cannot
fail, so the `err != nil { HandleError; continue }` arm of the loop is
unreachable in this model. -/

/-- An origin `authorizationapi.Policy` container: its namespaced identity and
the roles nested in its `Roles` map (iterated as a list here). -/
structure Policy where
  ns : String
  name : String
  roles : List OriginRole
deriving DecidableEq, Repr

/-- The handler-visible state of the controller: the `originIndexer` contents
and the sequence of keys passed to `queue.Add`. -/
structure HandlerState where
  indexer : List OriginRole
  queue : List String
deriving DecidableEq, Repr

/-- `originIndexer.Add`: upsert keyed by `MetaNamespaceKeyFunc` (the indexer's
key function); a previous entry with the same key is replaced. -/
def indexerAdd (idx : List OriginRole) (r : OriginRole) : List OriginRole :=
  r :: idx.filter (fun x => metaNamespaceKeyFunc x.meta != metaNamespaceKeyFunc r.meta)

/-- `originLister.Roles(ns).Get(name)` over the indexer: the stored role, or a
NotFound error when no entry has that namespace and name. -/
def indexerGet (idx : List OriginRole) (ns name : String) :
    Except GoError OriginRole :=
  match idx.find? (fun r => r.meta.ns == ns && r.meta.name == name) with
  | some r => Except.ok r
  | none => Except.error GoError.notFound

/-- The loop shared by the Add/Update/Delete callbacks: for each nested role,
`originIndexer.Add(role)` then `queue.Add(KeyFunc(role))`. -/
def processRoles (st : HandlerState) (roles : List OriginRole) : HandlerState :=
  roles.foldl
    (fun s r =>
      { indexer := indexerAdd s.indexer r
        queue := s.queue ++ [metaNamespaceKeyFunc r.meta] })
    st

/-- `AddFunc`: the object is asserted to be a `*Policy` and its roles are
processed. -/
def policyAddFunc (st : HandlerState) (p : Policy) : HandlerState :=
  processRoles st p.roles

/-- `UpdateFunc`: only `cur` is consulted; its roles are processed exactly as
on add (roles that `old` listed but `cur` no longer does are not touched). -/
def policyUpdateFunc (st : HandlerState) (_old cur : Policy) : HandlerState :=
  processRoles st cur.roles

/-- The argument of `DeleteFunc`: a `*Policy`, a `DeletedFinalStateUnknown`
tombstone whose `Obj` may or may not be a `*Policy`, or some other object
that is neither. -/
inductive DeleteObj where
  | policy (p : Policy)
  | tombstone (inner : Option Policy)
  | other
deriving DecidableEq, Repr

/-- The outcome of `DeleteFunc`: normal return with the new state and the
number of `utilruntime.HandleError` reports, or a nil-pointer-dereference
panic (with the reports made before it). -/
inductive HandlerOutcome where
  | ok (st : HandlerState) (errorsReported : Nat)
  | nilPanic (errorsReported : Nat)
deriving DecidableEq, Repr

/-- `DeleteFunc`: assert `*Policy`; failing that, assert a tombstone and then
assert its `Obj` is a `*Policy`.  Each failed assertion calls `HandleError`
but does not return, so when the object is neither form the loop then ranges
over `originContainerObj.Roles` with `originContainerObj == nil` and the Go
code panics with a nil-pointer dereference.  When a policy is recovered, its
roles are added to the indexer (`originIndexer.Add`) and their keys
enqueued, exactly as on add. -/
def policyDeleteFunc (st : HandlerState) (obj : DeleteObj) : HandlerOutcome :=
  match obj with
  | DeleteObj.policy p => HandlerOutcome.ok (processRoles st p.roles) 0
  | DeleteObj.tombstone (some p) => HandlerOutcome.ok (processRoles st p.roles) 0
  | DeleteObj.tombstone none => HandlerOutcome.nilPanic 1
  | DeleteObj.other => HandlerOutcome.nilPanic 2

/-! ### Properties shared by several claims, and concrete fixtures -/

/-- The fields of an `rbac.Role` that are not store-owned identity metadata:
namespace, name and the rule payload.  `stompIdentity` overwrites exactly the
complement of these. -/
def sameNonIdentity (a b : RbacRole) : Prop :=
  a.meta.ns = b.meta.ns ∧ a.meta.name = b.meta.name ∧ a.rules = b.rules

/-- An environment where every lookup is NotFound, conversion carries the
metadata and rules over unchanged (as the generated conversion does), deep
copy succeeds, and every write succeeds.  Concrete scenarios are built from
it by structure update. -/
def baseEnv : SyncEnv where
  rbacGet := fun _ _ => Except.error GoError.notFound
  originGet := fun _ _ => Except.error GoError.notFound
  convert := fun o => Except.ok { meta := o.meta, rules := o.rules }
  deepCopy := fun _ => none
  createResult := fun _ _ => none
  updateResult := fun _ _ => none
  deleteResult := fun _ _ => none

/-- Origin role `a/r1` with payload `[R1]`, as a fresh informer object (no
store identity metadata). -/
def exOrigin1 : OriginRole where
  meta := { ns := "a", name := "r1", uid := "", resourceVersion := "",
            creationTimestamp := 0, selfLink := "" }
  rules := ["R1"]

/-- Origin role `a/r1` after its payload changed to `[R1, R2]`. -/
def exOrigin2 : OriginRole where
  meta := { ns := "a", name := "r1", uid := "", resourceVersion := "",
            creationTimestamp := 0, selfLink := "" }
  rules := ["R1", "R2"]

/-- The rbac role `a/r1` as the derived store holds it once converged with
`exOrigin1`: same payload, store-assigned identity metadata. -/
def exRbac1 : RbacRole where
  meta := { ns := "a", name := "r1", uid := "u1", resourceVersion := "5",
            creationTimestamp := 7, selfLink := "/apis/rbac/roles/r1" }
  rules := ["R1"]

/-! ### Claims -/

/-- C7 (counterexample): at the malformed key `"a/b/c"`, `syncRole` does not
skip the item; it returns the parse error (a non-nil result), which under the
work-queue contract drives a rate-limited requeue. -/
theorem syncRole_badKey_error_escalated :
    (syncRole baseEnv "a/b/c").1 = some (GoError.badKey "a/b/c") ∧
      (syncRole baseEnv "a/b/c").1 ≠ none := by
  refine ⟨?_, ?_⟩ <;> decide

/-- C7 (amended): a key that fails to parse makes `syncRole` return the parse
error to its caller — with no lookup consulted and no write issued — rather
than swallowing it; the non-nil return is what the caller sees. -/
theorem syncRole_badKey_propagates (env : SyncEnv) (key : String) (e : GoError)
    (hkey : splitMetaNamespaceKey key = Except.error e) :
    syncRole env key = (some e, []) := by
  simp [syncRole, hkey]

/-- C7 (witness): the amended theorem at the concrete key `"a/b/c"`. -/
theorem syncRole_badKey_propagates_witness :
    syncRole baseEnv "a/b/c" = (some (GoError.badKey "a/b/c"), []) :=
  syncRole_badKey_propagates baseEnv "a/b/c" (GoError.badKey "a/b/c") (by decide)

/-- Environment for the orphan-delete scenario: origin role absent, rbac role
present, and the rbac client's delete reporting NotFound (the lister cache was
ahead of the live store). -/
def envDeleteNotFound : SyncEnv :=
  { baseEnv with
    rbacGet := fun _ _ => Except.ok exRbac1
    deleteResult := fun _ _ => some GoError.notFound }

/-- C6 (counterexample): origin role absent, rbac role present, and the delete
call reports NotFound — `syncRole` returns that NotFound as its error instead
of treating it as success. -/
theorem syncRole_delete_notFound_escalated :
    syncRole envDeleteNotFound "a/r1" =
      (some GoError.notFound, [WriteCall.delete "a" "r1"]) ∧
      (syncRole envDeleteNotFound "a/r1").1 ≠ none := by
  refine ⟨?_, ?_⟩ <;> decide

/-- C6 (amended): when the origin role is absent and the rbac role present,
`syncRole` issues exactly one delete call for that key and returns the
delete's result verbatim — including a NotFound error, which is escalated to
the caller rather than absorbed as success. -/
theorem syncRole_orphan_delete (env : SyncEnv) (key ns name : String)
    (rbacRole : RbacRole)
    (hkey : splitMetaNamespaceKey key = Except.ok (ns, name))
    (hrbac : env.rbacGet ns name = Except.ok rbacRole)
    (horigin : env.originGet ns name = Except.error GoError.notFound) :
    syncRole env key = (env.deleteResult ns name, [WriteCall.delete ns name]) := by
  simp [syncRole, hkey, hrbac, horigin]

/-- C6 (witness): the amended theorem at the NotFound-on-delete environment,
exhibiting the escalated error. -/
theorem syncRole_orphan_delete_witness :
    syncRole envDeleteNotFound "a/r1" =
      (some GoError.notFound, [WriteCall.delete "a" "r1"]) :=
  syncRole_orphan_delete envDeleteNotFound "a/r1" "a" "r1" exRbac1
    (by decide) rfl rfl

/-- Environment for the create scenario: origin role `a/r1` present, rbac
role absent (Scenario A of the spec). -/
def envCreate : SyncEnv :=
  { baseEnv with originGet := fun _ _ => Except.ok exOrigin1 }

/-- C5: when the origin role exists and the rbac lookup is NotFound,
`syncRole` issues exactly one write — a create of the converted role with its
`ResourceVersion` cleared — and returns whatever error that create call
produces. -/
theorem syncRole_create_when_rbac_missing (env : SyncEnv)
    (key ns name : String) (originRole : OriginRole) (cand : RbacRole)
    (hkey : splitMetaNamespaceKey key = Except.ok (ns, name))
    (hrbac : env.rbacGet ns name = Except.error GoError.notFound)
    (horigin : env.originGet ns name = Except.ok originRole)
    (hconv : convertDeepCopy env originRole = Except.ok cand) :
    syncRole env key =
      (env.createResult ns
          { cand with meta := { cand.meta with resourceVersion := "" } },
        [WriteCall.create ns
          { cand with meta := { cand.meta with resourceVersion := "" } }]) := by
  simp [syncRole, hkey, hrbac, horigin, hconv, createBranch]

/-- C5 (witness): Scenario A — source `a/r1` with rules `[R1]`, derived
absent; the reconcile issues exactly one create with rules `[R1]` and an
empty version token, and succeeds. -/
theorem syncRole_create_when_rbac_missing_witness :
    syncRole envCreate "a/r1" =
      (none, [WriteCall.create "a" { meta := exOrigin1.meta, rules := ["R1"] }]) :=
  syncRole_create_when_rbac_missing envCreate "a/r1" "a" "r1" exOrigin1
    { meta := exOrigin1.meta, rules := ["R1"] } (by decide) rfl rfl rfl

/-- Environment for the diverged-update scenarios: origin role `a/r1` now has
rules `[R1, R2]` while the rbac store still holds `exRbac1` with `[R1]`. -/
def envDiverged : SyncEnv :=
  { baseEnv with
    rbacGet := fun _ _ => Except.ok exRbac1
    originGet := fun _ _ => Except.ok exOrigin2 }

/-- `envDiverged` whose update call is rejected as invalid (Scenario E). -/
def envInvalidUpdate : SyncEnv :=
  { envDiverged with updateResult := fun _ _ => some GoError.invalid }

/-- When both lookups return a role and conversion plus deep copy succeed,
`syncRole` reaches the compare-and-update branch. -/
theorem syncRole_update_eq (env : SyncEnv) (key ns name : String)
    (originRole : OriginRole) (rbacRole cand : RbacRole)
    (hkey : splitMetaNamespaceKey key = Except.ok (ns, name))
    (hrbac : env.rbacGet ns name = Except.ok rbacRole)
    (horigin : env.originGet ns name = Except.ok originRole)
    (hconv : convertDeepCopy env originRole = Except.ok cand) :
    syncRole env key = updateBranch env ns name cand rbacRole := by
  simp [syncRole, hkey, hrbac, horigin, hconv]

/-- C2: when both roles exist, the stomped candidate differs from the stored
role, and the update is rejected as invalid, `syncRole` issues the update
followed by a delete of the same key, and returns the update's invalid error;
the delete's own result is discarded — the outcome is the same whatever
`deleteResult` the environment carries. -/
theorem syncRole_selfHeal (env : SyncEnv) (key ns name : String)
    (originRole : OriginRole) (rbacRole cand : RbacRole)
    (hkey : splitMetaNamespaceKey key = Except.ok (ns, name))
    (hrbac : env.rbacGet ns name = Except.ok rbacRole)
    (horigin : env.originGet ns name = Except.ok originRole)
    (hconv : convertDeepCopy env originRole = Except.ok cand)
    (hne : stompIdentity cand rbacRole ≠ rbacRole)
    (hinv : env.updateResult ns (stompIdentity cand rbacRole) =
      some GoError.invalid) :
    syncRole env key =
        (some GoError.invalid,
          [WriteCall.update ns (stompIdentity cand rbacRole),
            WriteCall.delete ns name]) ∧
      ∀ d, syncRole { env with deleteResult := d } key = syncRole env key := by
  have hmain : syncRole env key =
      (some GoError.invalid,
        [WriteCall.update ns (stompIdentity cand rbacRole),
          WriteCall.delete ns name]) := by
    rw [syncRole_update_eq env key ns name originRole rbacRole cand
      hkey hrbac horigin hconv]
    simp [updateBranch, hne, hinv, isInvalid]
  refine ⟨hmain, fun d => ?_⟩
  rw [syncRole_update_eq { env with deleteResult := d } key ns name originRole
      rbacRole cand hkey hrbac horigin hconv,
    syncRole_update_eq env key ns name originRole rbacRole cand
      hkey hrbac horigin hconv]
  rfl

/-- C2 (witness): Scenario E at the concrete diverged environment whose update
returns the invalid error, compared against the same environment with a
failing delete. -/
theorem syncRole_selfHeal_witness :
    syncRole envInvalidUpdate "a/r1" =
        (some GoError.invalid,
          [WriteCall.update "a" (stompIdentity
              { meta := exOrigin2.meta, rules := ["R1", "R2"] } exRbac1),
            WriteCall.delete "a" "r1"]) ∧
      ∀ d, syncRole { envInvalidUpdate with deleteResult := d } "a/r1" =
        syncRole envInvalidUpdate "a/r1" :=
  syncRole_selfHeal envInvalidUpdate "a/r1" "a" "r1" exOrigin2
    exRbac1 { meta := exOrigin2.meta, rules := ["R1", "R2"] }
    (by decide) rfl rfl rfl (by decide) rfl

/-- C3: whenever `syncRole` issues an update (both roles present, conversion
succeeded, stomped candidate differs from the stored role), the first write of
the invocation is an update whose object is the stomped candidate, and that
object's `UID`, `ResourceVersion`, `CreationTimestamp` and `SelfLink` are the
pre-existing rbac role's values — whatever the conversion put there. -/
theorem syncRole_update_preserves_identity (env : SyncEnv)
    (key ns name : String) (originRole : OriginRole) (rbacRole cand : RbacRole)
    (hkey : splitMetaNamespaceKey key = Except.ok (ns, name))
    (hrbac : env.rbacGet ns name = Except.ok rbacRole)
    (horigin : env.originGet ns name = Except.ok originRole)
    (hconv : convertDeepCopy env originRole = Except.ok cand)
    (hne : stompIdentity cand rbacRole ≠ rbacRole) :
    (syncRole env key).2.head? =
        some (WriteCall.update ns (stompIdentity cand rbacRole)) ∧
      (stompIdentity cand rbacRole).meta.uid = rbacRole.meta.uid ∧
      (stompIdentity cand rbacRole).meta.resourceVersion =
        rbacRole.meta.resourceVersion ∧
      (stompIdentity cand rbacRole).meta.creationTimestamp =
        rbacRole.meta.creationTimestamp ∧
      (stompIdentity cand rbacRole).meta.selfLink = rbacRole.meta.selfLink := by
  refine ⟨?_, rfl, rfl, rfl, rfl⟩
  rw [syncRole_update_eq env key ns name originRole rbacRole cand
    hkey hrbac horigin hconv]
  by_cases hinv : isInvalid (env.updateResult ns (stompIdentity cand rbacRole))
  · simp [updateBranch, hne, hinv]
  · simp [updateBranch, hne, hinv]

/-- C3 (witness): Scenario D — the update written for the diverged `a/r1`
carries rules `[R1, R2]` and the stored role's identity metadata. -/
theorem syncRole_update_preserves_identity_witness :
    (syncRole envDiverged "a/r1").2.head? =
        some (WriteCall.update "a" (stompIdentity
          { meta := exOrigin2.meta, rules := ["R1", "R2"] } exRbac1)) ∧
      (stompIdentity { meta := exOrigin2.meta, rules := ["R1", "R2"] }
          exRbac1).meta.uid = exRbac1.meta.uid ∧
      (stompIdentity { meta := exOrigin2.meta, rules := ["R1", "R2"] }
          exRbac1).meta.resourceVersion = exRbac1.meta.resourceVersion ∧
      (stompIdentity { meta := exOrigin2.meta, rules := ["R1", "R2"] }
          exRbac1).meta.creationTimestamp = exRbac1.meta.creationTimestamp ∧
      (stompIdentity { meta := exOrigin2.meta, rules := ["R1", "R2"] }
          exRbac1).meta.selfLink = exRbac1.meta.selfLink :=
  syncRole_update_preserves_identity envDiverged "a/r1" "a" "r1" exOrigin2
    exRbac1 { meta := exOrigin2.meta, rules := ["R1", "R2"] }
    (by decide) rfl rfl rfl (by decide)

/-- C10: when the origin role is present (and the rbac lookup either found a
role or was NotFound) but conversion — or the subsequent deep copy — fails,
`syncRole` returns that error and issues no write at all. -/
theorem syncRole_convert_error_no_write (env : SyncEnv)
    (key ns name : String) (originRole : OriginRole) (e : GoError)
    (hkey : splitMetaNamespaceKey key = Except.ok (ns, name))
    (horigin : env.originGet ns name = Except.ok originRole)
    (hrbac : (∃ r, env.rbacGet ns name = Except.ok r) ∨
      env.rbacGet ns name = Except.error GoError.notFound)
    (hfail : env.convert originRole = Except.error e ∨
      ∃ c, env.convert originRole = Except.ok c ∧ env.deepCopy c = some e) :
    syncRole env key = (some e, []) := by
  have hconv : convertDeepCopy env originRole = Except.error e := by
    rcases hfail with h | ⟨c, hc, hd⟩
    · simp [convertDeepCopy, h]
    · simp [convertDeepCopy, hc, hd]
  rcases hrbac with ⟨r, hr⟩ | hr
  · simp [syncRole, hkey, hr, horigin, hconv]
  · simp [syncRole, hkey, hr, horigin, hconv]

/-- Environment whose conversion fails on every input. -/
def envConvertFails : SyncEnv :=
  { baseEnv with
    originGet := fun _ _ => Except.ok exOrigin1
    convert := fun _ => Except.error (GoError.other "conversion failed") }

/-- C10 (witness): with the origin role present, the rbac role absent and a
failing conversion, the sync returns the conversion error and writes
nothing. -/
theorem syncRole_convert_error_no_write_witness :
    syncRole envConvertFails "a/r1" =
      (some (GoError.other "conversion failed"), []) :=
  syncRole_convert_error_no_write envConvertFails "a/r1" "a" "r1" exOrigin1
    (GoError.other "conversion failed") (by decide) rfl (Or.inr rfl) (Or.inl rfl)

/-- A true `isInvalid` pins the error down to the invalid kind. -/
theorem isInvalid_eq (o : Option GoError) (h : isInvalid o = true) :
    o = some GoError.invalid := by
  cases o with
  | none => simp [isInvalid] at h
  | some e => cases e <;> simp_all [isInvalid]

/-- Stomping the candidate's identity fields with a role that already agrees
with it outside those fields reproduces that role exactly. -/
theorem stompIdentity_eq_of_sameNonIdentity (cand r : RbacRole)
    (h : sameNonIdentity r cand) : stompIdentity cand r = r := by
  obtain ⟨h1, h2, h3⟩ := h
  cases cand with
  | mk cm cr =>
    cases r with
    | mk rm rr =>
      cases cm
      cases rm
      simp_all [stompIdentity]

/-- Environment for the converged scenario (Scenario B): origin `a/r1` with
rules `[R1]` and the matching stored rbac role. -/
def envConverged : SyncEnv :=
  { baseEnv with
    rbacGet := fun _ _ => Except.ok exRbac1
    originGet := fun _ _ => Except.ok exOrigin1 }

/-- C4: with both roles present and a converted candidate, (1) if the
candidate with its identity fields overwritten from the stored role equals
that role, the sync succeeds with no write; (2) the stomped candidate always
agrees with the candidate outside the identity fields; (3) a successful sync
either wrote nothing — and then the stomped candidate equalled the stored
role — or wrote exactly the one update carrying the stomped candidate, so a
successful pass leaves the store's role agreeing with the candidate outside
identity metadata; (4) hence a second reconcile of the unchanged key — same
origin role and candidate, the stored role now agreeing with the candidate
outside the store-owned identity fields — succeeds and issues zero writes. -/
theorem syncRole_noop_and_idempotent (env env2 : SyncEnv)
    (key ns name : String) (originRole : OriginRole)
    (rbacRole rbac2 cand : RbacRole)
    (hkey : splitMetaNamespaceKey key = Except.ok (ns, name))
    (hrbac : env.rbacGet ns name = Except.ok rbacRole)
    (horigin : env.originGet ns name = Except.ok originRole)
    (hconv : convertDeepCopy env originRole = Except.ok cand) :
    (stompIdentity cand rbacRole = rbacRole → syncRole env key = (none, []))
    ∧ sameNonIdentity (stompIdentity cand rbacRole) cand
    ∧ ((syncRole env key).1 = none →
        ((syncRole env key).2 = [] ∧ stompIdentity cand rbacRole = rbacRole) ∨
          (syncRole env key).2 =
            [WriteCall.update ns (stompIdentity cand rbacRole)])
    ∧ ((syncRole env key).1 = none →
        env2.rbacGet ns name = Except.ok rbac2 →
        env2.originGet ns name = Except.ok originRole →
        convertDeepCopy env2 originRole = Except.ok cand →
        sameNonIdentity rbac2 cand →
        syncRole env2 key = (none, [])) := by
  have hupd := syncRole_update_eq env key ns name originRole rbacRole cand
    hkey hrbac horigin hconv
  refine ⟨?_, ⟨rfl, rfl, rfl⟩, ?_, ?_⟩
  · intro h
    rw [hupd]
    simp [updateBranch, h]
  · intro hok
    rw [hupd] at hok ⊢
    by_cases h : stompIdentity cand rbacRole = rbacRole
    · exact Or.inl ⟨by simp [updateBranch, h], h⟩
    · refine Or.inr ?_
      by_cases hinv : isInvalid (env.updateResult ns (stompIdentity cand rbacRole))
      · exfalso
        have he := isInvalid_eq _ hinv
        simp [updateBranch, h, he, isInvalid] at hok
      · simp [updateBranch, h, hinv]
  · intro _ hrbac2 horigin2 hconv2 hsame
    rw [syncRole_update_eq env2 key ns name originRole rbac2 cand
      hkey hrbac2 horigin2 hconv2]
    simp [updateBranch, stompIdentity_eq_of_sameNonIdentity cand rbac2 hsame]

/-- C4 (witness): Scenario B — the converged `a/r1` reconciles with success
and zero writes. -/
theorem syncRole_noop_and_idempotent_witness :
    syncRole envConverged "a/r1" = (none, []) :=
  (syncRole_noop_and_idempotent envConverged envConverged "a/r1" "a" "r1"
    exOrigin1 exRbac1 exRbac1 { meta := exOrigin1.meta, rules := ["R1"] }
    (by decide) rfl rfl rfl).1 (by decide)

/-- C8 (counterexample): in the rejected-update scenario, a single `syncRole`
invocation issues two writes against the rbac client — the update and the
self-heal delete — not at most one. -/
theorem syncRole_two_writes :
    ((syncRole envInvalidUpdate "a/r1").2).length = 2 ∧
      ¬((syncRole envInvalidUpdate "a/r1").2).length ≤ 1 := by
  refine ⟨?_, ?_⟩ <;> decide

/-- C8 (amended): every `syncRole` invocation issues at most two writes: none,
exactly one, or — only when an update was rejected as invalid — that update
followed by the self-heal delete. -/
theorem syncRole_write_count (env : SyncEnv) (key : String) :
    (syncRole env key).2 = []
    ∨ (∃ w, (syncRole env key).2 = [w])
    ∨ (∃ ns w name, (syncRole env key).2 =
          [WriteCall.update ns w, WriteCall.delete ns name] ∧
        isInvalid (env.updateResult ns w) = true) := by
  rcases hsplit : splitMetaNamespaceKey key with e | ⟨ns, name⟩
  · exact Or.inl (by simp [syncRole, hsplit])
  · rcases hr : env.rbacGet ns name with re | rrole
    · by_cases hre : re = GoError.notFound
      · rcases ho : env.originGet ns name with oe | orole
        · exact Or.inl (by by_cases hoe : oe = GoError.notFound <;>
            simp [syncRole, hsplit, hr, hre, ho, hoe])
        · rcases hc : convertDeepCopy env orole with ce | cand
          · exact Or.inl (by simp [syncRole, hsplit, hr, hre, ho, hc])
          · refine Or.inr (Or.inl ⟨WriteCall.create ns
              { cand with meta := { cand.meta with resourceVersion := "" } }, ?_⟩)
            simp [syncRole, hsplit, hr, hre, ho, hc, createBranch]
      · exact Or.inl (by simp [syncRole, hsplit, hr, hre])
    · rcases ho : env.originGet ns name with oe | orole
      · by_cases hoe : oe = GoError.notFound
        · exact Or.inr (Or.inl ⟨WriteCall.delete ns name,
            by simp [syncRole, hsplit, hr, ho, hoe]⟩)
        · exact Or.inl (by simp [syncRole, hsplit, hr, ho, hoe])
      · rcases hc : convertDeepCopy env orole with ce | cand
        · exact Or.inl (by simp [syncRole, hsplit, hr, ho, hc])
        · by_cases heq : stompIdentity cand rrole = rrole
          · exact Or.inl
              (by simp [syncRole, hsplit, hr, ho, hc, updateBranch, heq])
          · by_cases hinv :
              isInvalid (env.updateResult ns (stompIdentity cand rrole)) = true
            · refine Or.inr (Or.inr
                ⟨ns, stompIdentity cand rrole, name, ?_, hinv⟩)
              simp [syncRole, hsplit, hr, ho, hc, updateBranch, heq, hinv]
            · exact Or.inr (Or.inl ⟨WriteCall.update ns (stompIdentity cand rrole),
                by simp [syncRole, hsplit, hr, ho, hc, updateBranch, heq, hinv]⟩)

/-- The policy container in namespace `a` holding the single role `a/r1`. -/
def exPolicy : Policy where
  ns := "a"
  name := "default"
  roles := [exOrigin1]

/-- Handler state after `exPolicy` was first added: its role is indexed and
the queue is drained. -/
def exSt0 : HandlerState where
  indexer := [exOrigin1]
  queue := []

/-- C1: deleting the policy container does not make its role disappear.
`DeleteFunc` re-`Add`s each nested role to the origin indexer (instead of
removing it), so after the handler runs the origin lister still returns the
role; the enqueued key's `syncRole` then sees the origin role present, takes
the converge branch, and issues no delete — the rbac role survives.  A policy
update that drops the role is worse: `UpdateFunc` neither unindexes nor even
enqueues the vanished role. -/
theorem policyDelete_role_survives :
    policyDeleteFunc exSt0 (DeleteObj.policy exPolicy) =
        HandlerOutcome.ok { indexer := [exOrigin1], queue := ["a/r1"] } 0 ∧
      indexerGet [exOrigin1] "a" "r1" = Except.ok exOrigin1 ∧
      syncRole { baseEnv with
          rbacGet := fun _ _ => Except.ok exRbac1
          originGet := indexerGet [exOrigin1] } "a/r1" = (none, []) ∧
      policyUpdateFunc exSt0 exPolicy
          { ns := "a", name := "default", roles := [] } =
        exSt0 := by
  refine ⟨?_, ?_, ?_, ?_⟩ <;> decide

/-- C9: a delete notification whose object is neither a `*Policy` nor a
tombstone, or a tombstone wrapping something other than a `*Policy`, leaves
`originContainerObj` nil after the failed type assertions (which report errors
but do not return), and the subsequent range over its `Roles` panics with a
nil-pointer dereference instead of returning normally. -/
theorem policyDelete_undecodable_panics :
    policyDeleteFunc exSt0 DeleteObj.other = HandlerOutcome.nilPanic 2 ∧
      policyDeleteFunc exSt0 (DeleteObj.tombstone none) =
        HandlerOutcome.nilPanic 1 :=
  ⟨rfl, rfl⟩

end AuthorizationSync
